import Mathlib

/-!
# Verification of the GeoGrid spatial index (GeoBases/GeoGridModule.py)

A shallow embedding of the geohash-backed grid index:

* Python floats are modelled as exact rationals (`ℚ`); points are `ℚ × ℚ`.
* The external collaborators (geohash `encode`, `neighbors`, and `haversine`)
  are a parameter `GeoExt χ`, where `χ` is the cell-code type.  A failing
  encoder (`encode` raising on malformed / out-of-range input) is modelled by
  `Option`: `none` models the raised exception.
* The two Python dicts `_keys` and `_grid` are modelled as an association list
  with dict update semantics (replace in place, append new keys at the end)
  and a function with default `[]` (Python's `setdefault`-style bucket
  creation).
* Python `set`s become `Finset`s; generators that can yield duplicates become
  `Multiset`s; eager sorted lists stay `List`s.
* Generators are modelled by total recursion on explicit fuel: the frontier
  generator raises after yield number `MAX_RECURSIVE_FRONTIER` (the loop check
  is `i > MAX_RECURSIVE_FRONTIER`, tested before yield `i`), so driving it is
  modelled with fuel `MAX_RECURSIVE_FRONTIER + 1`; exhausting the fuel models
  the raise, surfaced as `GridErr.expansionExhausted` (matching the
  `RuntimeError` a consumer observes when a generator body raises
  `StopIteration`).
-/

/-- Error states observable by a caller of the grid:
the external encoder raising on a bad coordinate pair, and the
frontier generator hitting its hard recursion cap. -/
inductive GridErr where
  | encodeError : GridErr
  | expansionExhausted : GridErr
deriving DecidableEq

/-- Equality of materialized query outcomes is decidable (used to evaluate
the model on concrete inputs). -/
instance {ε α : Type} [DecidableEq ε] [DecidableEq α] : DecidableEq (Except ε α) := fun a b =>
  match a, b with
  | .error e1, .error e2 =>
      if h : e1 = e2 then isTrue (h ▸ rfl)
      else isFalse (fun hc => h (Except.error.inj hc))
  | .error _, .ok _ => isFalse (fun hc => Except.noConfusion hc)
  | .ok _, .error _ => isFalse (fun hc => Except.noConfusion hc)
  | .ok a1, .ok a2 =>
      if h : a1 = a2 then isTrue (h ▸ rfl)
      else isFalse (fun hc => h (Except.ok.inj hc))

/-- The external collaborators consumed (not implemented) by the grid:
`encode` (geohash encoding at the index's precision; `none` models the
exception raised on malformed or out-of-range input), `neighbors` (the up to
8 adjacent cells of a cell), and `haversine` (great-circle distance). -/
structure GeoExt (χ : Type) where
  encode : ℚ × ℚ → Option χ
  neighbors : χ → List χ
  haversine : ℚ × ℚ → ℚ × ℚ → ℚ

/-- The state of a `GeoGrid` instance: the configured precision, its average
cell error (`_avg_radius`), the key → (case, point) dict `_keys` (association
list in insertion order, latest write wins in place), and the
case → bucket-of-keys dict `_grid` (a function with default `[]`). -/
structure GeoGrid (χ : Type) where
  _precision : ℕ
  _avg_radius : ℚ
  _keys : List (String × χ × (ℚ × ℚ))
  _grid : χ → List String

/-- Max recursion when iterating on frontiers (module-level constant). -/
def MAX_RECURSIVE_FRONTIER : ℕ := 5000

/-! ## PrecisionSelector: the precision table and radius-driven selection -/

/-- The wikipedia precision table, keeping the pair
(hash length, km error) actually consumed by the code
(the lat/lng bit and degree-error columns are never read). -/
def precision_to_errors : List (ℕ × ℚ) :=
  [(1, 2500), (2, 630), (3, 78), (4, 20),
   (5, 24/10), (6, 61/100), (7, 76/1000), (8, 19/1000)]

/-- The sort key `(x[1][4] < radius, abs(radius - x[1][4]))` used by
`min(..., key=...)` in `GeoGrid.__init__`. -/
def pyKeyOf (radius err : ℚ) : Bool × ℚ :=
  (decide (err < radius), |radius - err|)

/-- Python's `<` on `(bool, float)` pairs: lexicographic, `False < True`. -/
def lexLtBQ (a b : Bool × ℚ) : Prop :=
  a.1 < b.1 ∨ (a.1 = b.1 ∧ a.2 < b.2)

instance : DecidableRel lexLtBQ := fun a b =>
  inferInstanceAs (Decidable (a.1 < b.1 ∨ (a.1 = b.1 ∧ a.2 < b.2)))

/-- Python's `min` with a key function, folded over the remaining items with
the first item as the initial best: a later item replaces the best only when
its key is strictly smaller, so the first minimum wins ties. -/
def pyMinKey (radius : ℚ) : List (ℕ × ℚ) → ℕ × ℚ → ℕ × ℚ
  | [], best => best
  | x :: xs, best =>
      pyMinKey radius xs (if lexLtBQ (pyKeyOf radius x.2) (pyKeyOf radius best.2) then x else best)

/-- `min(iter(precision_to_errors.items()), key=...)`; `none` models the
`ValueError` Python's `min` raises on an empty iterable. -/
def pyMin (radius : ℚ) (l : List (ℕ × ℚ)) : Option (ℕ × ℚ) :=
  match l with
  | [] => none
  | x :: xs => some (pyMinKey radius xs x)

/-- The `(precision, km_error)` pair selected for a requested radius. -/
def selectPrecision (radius : ℚ) : ℕ × ℚ :=
  (pyMin radius precision_to_errors).getD (0, 0)

/-- `GeoGrid(radius=...)`: radius-driven construction; the selected level is
stored as `_precision` and its km error as `_avg_radius`;
both dicts start empty. -/
def gridFromRadius (χ : Type) (radius : ℚ) : GeoGrid χ :=
  { _precision := (selectPrecision radius).1
    _avg_radius := (selectPrecision radius).2
    _keys := []
    _grid := fun _ => [] }

/-- `GeoGrid(precision=...)`: explicit-precision construction. -/
def gridFromPrecision (χ : Type) (precision : ℕ) (avg : ℚ) : GeoGrid χ :=
  { _precision := precision
    _avg_radius := avg
    _keys := []
    _grid := fun _ => [] }

/-! ## GridIndex: the two mappings and insertion -/

variable {χ : Type}

/-- `self._keys[key]` read access (`None` models `KeyError`). -/
def lookupKey (g : GeoGrid χ) (key : String) : Option (χ × (ℚ × ℚ)) :=
  (g._keys.find? (fun e => e.1 == key)).map (fun e => e.2)

/-- Python dict write `d[key] = v`: replaces an existing entry in place,
appends a new key at the end. -/
def updateEntry : List (String × χ × (ℚ × ℚ)) → String → χ × (ℚ × ℚ) →
    List (String × χ × (ℚ × ℚ))
  | [], key, v => [(key, v)]
  | e :: es, key, v =>
      if e.1 = key then (key, v) :: es else e :: updateEntry es key v

/-- `GeoGrid.add`: compute the case id of the point; any encoder failure is
caught (`except (TypeError, Exception)`) and the point is skipped with the
state untouched; otherwise overwrite the key's `_keys` entry and append the
key to the case's `_grid` bucket (created empty if absent). -/
def add [DecidableEq χ] (E : GeoExt χ) (g : GeoGrid χ) (key : String)
    (lat_lng : ℚ × ℚ) : GeoGrid χ :=
  match E.encode lat_lng with
  | none => g
  | some case_id =>
      { g with
        _keys := updateEntry g._keys key (case_id, lat_lng)
        _grid := fun c => if c = case_id then g._grid case_id ++ [key] else g._grid c }

/-- A build phase: a sequence of `add` calls on a freshly constructed grid. -/
def applyAdds [DecidableEq χ] (E : GeoExt χ) (precision : ℕ) (avg : ℚ)
    (l : List (String × (ℚ × ℚ))) : GeoGrid χ :=
  l.foldl (fun g kp => add E g kp.1 kp.2) (gridFromPrecision χ precision avg)

/-! ## FrontierExpander -/

/-- `GeoGrid._nextFrontier`: the set of neighbors of the frontier's cells
that are not already in the interior. -/
def _nextFrontier [DecidableEq χ] (E : GeoExt χ) (frontier interior : Finset χ) : Finset χ :=
  (frontier.biUnion fun cid => (E.neighbors cid).toFinset) \ interior

/-- One step of the frontier loop body:
`frontier = self._nextFrontier(frontier, interior); interior = interior | frontier`. -/
def advanceFrontier [DecidableEq χ] (E : GeoExt χ) (s : Finset χ × Finset χ) :
    Finset χ × Finset χ :=
  (_nextFrontier E s.1 s.2, s.2 ∪ _nextFrontier E s.1 s.2)

/-- The bounded generator `_recursiveFrontier(case_id, N, stop=True)`, fused
with a consumer that drains it: `rem` is the number of loop indices left in
`range(N)` and `i` the current index.  The generator checks
`i > MAX_RECURSIVE_FRONTIER` before yielding frontier `i`; the `Bool` is true
iff the run ended in that raise rather than in `range` exhaustion. -/
def boundedFrontier [DecidableEq χ] (E : GeoExt χ) :
    ℕ → ℕ → Finset χ → Finset χ → List (Finset χ) × Bool
  | 0, _, _, _ => ([], false)
  | rem + 1, i, frontier, interior =>
      if MAX_RECURSIVE_FRONTIER < i then ([], true)
      else
        let r := boundedFrontier E rem (i + 1) (_nextFrontier E frontier interior)
          (interior ∪ _nextFrontier E frontier interior)
        (frontier :: r.1, r.2)

/-- `list(self._recursiveFrontier(case_id, N))` together with the
did-it-raise flag. -/
def _recursiveFrontier [DecidableEq χ] (E : GeoExt χ) (case_id : χ) (N : ℕ) :
    List (Finset χ) × Bool :=
  boundedFrontier E N 0 {case_id} {case_id}

/-- The unbounded generator (`stop=False`) driven without a break: `fuel` is
the number of yields left before the `i > MAX_RECURSIVE_FRONTIER` check
raises, so a full drain uses fuel `MAX_RECURSIVE_FRONTIER + 1` and the run
always ends in the raise. -/
def unboundedFrontier [DecidableEq χ] (E : GeoExt χ) :
    ℕ → Finset χ → Finset χ → List (Finset χ)
  | 0, _, _ => []
  | fuel + 1, frontier, interior =>
      frontier :: unboundedFrontier E fuel (_nextFrontier E frontier interior)
        (interior ∪ _nextFrontier E frontier interior)

/-- Every frontier the unbounded generator yields before its hard-cap raise. -/
def unboundedYields [DecidableEq χ] (E : GeoExt χ) (case_id : χ) : List (Finset χ) :=
  unboundedFrontier E (MAX_RECURSIVE_FRONTIER + 1) {case_id} {case_id}

/-! ## Candidate collection and distance refinement -/

/-- `GeoGrid._allKeysInCases`: all keys in the buckets of an iterable of
cases, duplicates preserved (a multiset, since Python iterates a set of
cases in unspecified order). -/
def _allKeysInCases (g : GeoGrid χ) (cases : Multiset χ) : Multiset String :=
  cases.bind fun case_id => (g._grid case_id : Multiset String)

/-- `set(self._allKeysInCases(frontier))` as used by `findClosestFromPoint`. -/
def keysInCasesFin [DecidableEq χ] (g : GeoGrid χ) (frontier : Finset χ) : Finset String :=
  (_allKeysInCases g frontier.val).toFinset

/-- `GeoGrid._check_distance`: pair each candidate with its haversine
distance from `ref`, keeping those within `radius` (`none` models
`float('inf')`, which every distance passes).  A candidate key is looked up
in `_keys` for its stored point (`add` never buckets a key without also
writing `_keys`, so the lookup succeeds on any grid built by `add`). -/
def _check_distance (E : GeoExt χ) (g : GeoGrid χ) (ref : ℚ × ℚ)
    (radius : Option ℚ) (candidate : Multiset String) : Multiset (ℚ × String) :=
  candidate.filterMap fun can =>
    match lookupKey g can with
    | none => none
    | some cp =>
        match radius with
        | none => some (E.haversine ref cp.2, can)
        | some r => if E.haversine ref cp.2 ≤ r then some (E.haversine ref cp.2, can) else none

/-! ## Radius search -/

/-- Python `int()` (truncation toward zero) of a rational. -/
def ratTrunc (q : ℚ) : ℤ :=
  Int.tdiv q.num (q.den : ℤ)

/-- The ring count chosen by `GeoGrid._findNearCase`:
`2` when `float(radius) == self._avg_radius`, else
`int(float(radius) / self._avg_radius) + 2`. -/
def _findNearCaseN (radius avg : ℚ) : ℤ :=
  if radius = avg then 2 else ratTrunc (radius / avg) + 2

/-- The shared body of `findNearPoint` / `findNearKey` once a case id and a
reference point are in hand: expand `_findNearCaseN` rings, gather every key
in them, then either double-check distances against the radius or pair each
candidate with the placeholder distance 0. -/
def _findNearCaseRun [DecidableEq χ] (E : GeoExt χ) (g : GeoGrid χ) (case_id : χ)
    (ref : ℚ × ℚ) (radius : ℚ) (double_check : Bool) :
    Except GridErr (Multiset (ℚ × String)) :=
  let r := _recursiveFrontier E case_id (_findNearCaseN radius g._avg_radius).toNat
  if r.2 then .error .expansionExhausted
  else
    let candidate := (r.1.map fun f => _allKeysInCases g f.val).sum
    if double_check then .ok (_check_distance E g ref (some radius) candidate)
    else .ok (candidate.map fun can => ((0 : ℚ), can))

/-- `GeoGrid.findNearPoint`; the argument is `Option` because a missing
point (`lat_lng is None`) short-circuits to an empty result, while any other
encoder failure propagates. -/
def findNearPoint [DecidableEq χ] (E : GeoExt χ) (g : GeoGrid χ)
    (lat_lng : Option (ℚ × ℚ)) (radius : ℚ) (double_check : Bool) :
    Except GridErr (Multiset (ℚ × String)) :=
  match lat_lng with
  | none => .ok 0
  | some p =>
      match E.encode p with
      | none => .error .encodeError
      | some case_id => _findNearCaseRun E g case_id p radius double_check

/-- `GeoGrid.findNearKey`: a key that was never indexed yields an empty
result; otherwise search from the key's stored case and point. -/
def findNearKey [DecidableEq χ] (E : GeoExt χ) (g : GeoGrid χ) (key : String)
    (radius : ℚ) (double_check : Bool) : Except GridErr (Multiset (ℚ × String)) :=
  match lookupKey g key with
  | none => .ok 0
  | some cp => _findNearCaseRun E g cp.1 cp.2 radius double_check

/-! ## Top-N search -/

/-- Python's `<` / `sorted` order on `(float, str)` pairs: by distance first,
ties decided by comparing the key strings. -/
def pairLE (a b : ℚ × String) : Prop :=
  a.1 < b.1 ∨ (a.1 = b.1 ∧ a.2 ≤ b.2)

instance : DecidableRel pairLE := fun a b =>
  inferInstanceAs (Decidable (a.1 < b.1 ∨ (a.1 = b.1 ∧ a.2 ≤ b.2)))

instance : IsTrans (ℚ × String) pairLE where
  trans a b c h1 h2 := by
    rcases h1 with h1 | ⟨e1, l1⟩ <;> rcases h2 with h2 | ⟨e2, l2⟩
    · exact Or.inl (lt_trans h1 h2)
    · exact Or.inl (e2 ▸ h1)
    · exact Or.inl (e1 ▸ h2)
    · exact Or.inr ⟨e1.trans e2, le_trans l1 l2⟩

instance : IsAntisymm (ℚ × String) pairLE where
  antisymm a b h1 h2 := by
    rcases h1 with h1 | ⟨e1, l1⟩ <;> rcases h2 with h2 | ⟨e2, l2⟩
    · exact absurd h2 (asymm h1)
    · exact absurd h1 (e2 ▸ lt_irrefl _)
    · exact absurd h2 (e1 ▸ lt_irrefl _)
    · exact Prod.ext e1 (le_antisymm l1 l2)

instance : IsTotal (ℚ × String) pairLE where
  total a b := by
    rcases lt_trichotomy a.1 b.1 with h | h | h
    · exact Or.inl (Or.inl h)
    · rcases le_total a.2 b.2 with h2 | h2
      · exact Or.inl (Or.inr ⟨h, h2⟩)
      · exact Or.inr (Or.inr ⟨h.symm, h2⟩)
    · exact Or.inr (Or.inl h)

/-- Python's `sorted` on the `(distance, key)` pairs: the unique
`pairLE`-sorted enumeration of the multiset (`pairLE` is a total
antisymmetric order, so every correct sort — Python's stable mergesort
included — produces this same list, whatever order the set iteration fed
it). -/
def sortPairs (s : Multiset (ℚ × String)) : List (ℚ × String) :=
  Quot.liftOn s (fun l => l.insertionSort pairLE) fun l1 l2 h =>
    List.eq_of_perm_of_sorted
      ((l1.perm_insertionSort pairLE).trans ((h : l1.Perm l2).trans
        (l2.perm_insertionSort pairLE).symm))
      (List.sorted_insertionSort pairLE l1)
      (List.sorted_insertionSort pairLE l2)

/-- The `for frontier in self._recursiveFrontier(case_id, stop=False)` loop
of `findClosestFromPoint`, fused with the unbounded generator: each step
accumulates the frontier's keys into `found` (intersecting with the
restriction set when present) and breaks once `len(found) >= N` with a
frontier of more than one cell; exhausting the fuel models the generator's
hard-cap raise. -/
def closestLoop [DecidableEq χ] (E : GeoExt χ) (g : GeoGrid χ)
    (from_keys : Option (Finset String)) (N : ℕ) :
    ℕ → Finset χ → Finset χ → Finset String → Except GridErr (Finset String)
  | 0, _, _, _ => .error .expansionExhausted
  | fuel + 1, frontier, interior, found =>
      let found2 :=
        match from_keys with
        | some s => (found ∪ keysInCasesFin g frontier) ∩ s
        | none => found ∪ keysInCasesFin g frontier
      if N ≤ found2.card ∧ 1 < frontier.card then .ok found2
      else
        closestLoop E g from_keys N fuel (_nextFrontier E frontier interior)
          (interior ∪ _nextFrontier E frontier interior) found2

/-- `findClosestFromPoint` after the empty-restriction short-circuit: clamp
`N` to the number of indexed keys, encode the query point (a failure
propagates), run the expansion loop, then either sort the double-checked
`(distance, key)` pairs ascending and truncate to `N`, or return every found
key with placeholder distance 0 (no truncation). -/
def findClosestAux [DecidableEq χ] (E : GeoExt χ) (g : GeoGrid χ) (lat_lng : ℚ × ℚ)
    (N : ℕ) (double_check : Bool) (from_keys : Option (Finset String)) :
    Except GridErr (List (ℚ × String)) :=
  let N2 := min N g._keys.length
  match E.encode lat_lng with
  | none => .error .encodeError
  | some case_id =>
      match closestLoop E g from_keys N2 (MAX_RECURSIVE_FRONTIER + 1)
          {case_id} {case_id} ∅ with
      | .error e => .error e
      | .ok found =>
          if double_check then
            .ok ((sortPairs (_check_distance E g lat_lng none found.val)).take N2)
          else
            .ok (sortPairs (found.val.map fun can => ((0 : ℚ), can)))

/-- `GeoGrid.findClosestFromPoint`: an explicitly supplied restriction set is
materialized first and an empty one returns `[]` immediately, before the
query point is even encoded. -/
def findClosestFromPoint [DecidableEq χ] (E : GeoExt χ) (g : GeoGrid χ)
    (lat_lng : ℚ × ℚ) (N : ℕ) (double_check : Bool) (from_keys : Option (List String)) :
    Except GridErr (List (ℚ × String)) :=
  match from_keys with
  | some l =>
      if l.toFinset = ∅ then .ok []
      else findClosestAux E g lat_lng N double_check (some l.toFinset)
  | none => findClosestAux E g lat_lng N double_check none

/-! ## A concrete external collaborator: the regular-grid model

The spec's ring-size invariants are stated "for square grid adjacency"; the
geohash `neighbors` primitive behaves, away from poles and antimeridian, as
the 8-neighborhood of a cell of a regular rectangular grid.  `ℤ × ℤ` cells
with Moore adjacency realize that hypothesis exactly, and a floor-based
encoder with the usual coordinate range check stands in for geohash
`encode`, raising (returning `none`) out of range. -/

/-- The 8 Moore neighbors of a cell of a regular rectangular grid. -/
def mooreNeighbors (c : ℤ × ℤ) : List (ℤ × ℤ) :=
  [(c.1 - 1, c.2 - 1), (c.1 - 1, c.2), (c.1 - 1, c.2 + 1),
   (c.1, c.2 - 1), (c.1, c.2 + 1),
   (c.1 + 1, c.2 - 1), (c.1 + 1, c.2), (c.1 + 1, c.2 + 1)]

/-- A floor-based stand-in for the external geohash encoder: rejects
coordinates outside latitude [-90, 90] / longitude [-180, 180]. -/
def intEncode (p : ℚ × ℚ) : Option (ℤ × ℤ) :=
  if p.1 < -90 ∨ 90 < p.1 ∨ p.2 < -180 ∨ 180 < p.2 then none
  else some (⌊p.1⌋, ⌊p.2⌋)

/-- A concrete stand-in for the external great-circle distance: the
Chebyshev distance (any distance works for the claims checked here; only
`haversine p p = 0` and determinism matter). -/
def chebDistQ (a b : ℚ × ℚ) : ℚ :=
  max |a.1 - b.1| |a.2 - b.2|

/-- The regular-grid instantiation of the external collaborators. -/
def mooreE : GeoExt (ℤ × ℤ) :=
  { encode := intEncode, neighbors := mooreNeighbors, haversine := chebDistQ }

/-- The cells at Chebyshev distance exactly `n` from `c0`: `Finset.box n`
translated by `c0`. -/
def gridSphere (c0 : ℤ × ℤ) (n : ℕ) : Finset (ℤ × ℤ) :=
  (Finset.box n : Finset (ℤ × ℤ)).image fun z => (c0.1 + z.1, c0.2 + z.2)

/-- The cells at Chebyshev distance at most `n` from `c0`. -/
def gridBall (c0 : ℤ × ℤ) (n : ℕ) : Finset (ℤ × ℤ) :=
  Finset.Icc (c0.1 - n, c0.2 - n) (c0.1 + n, c0.2 + n)

lemma mem_gridSphere {c0 q : ℤ × ℤ} {n : ℕ} :
    q ∈ gridSphere c0 n ↔ max (q.1 - c0.1).natAbs (q.2 - c0.2).natAbs = n := by
  unfold gridSphere
  rw [Finset.mem_image]
  constructor
  · rintro ⟨z, hz, rfl⟩
    rw [Int.mem_box] at hz
    simpa using hz
  · intro h
    refine ⟨(q.1 - c0.1, q.2 - c0.2), ?_, ?_⟩
    · rw [Int.mem_box]; simpa using h
    · obtain ⟨q1, q2⟩ := q
      simp [Prod.ext_iff]

lemma mem_gridBall {c0 q : ℤ × ℤ} {n : ℕ} :
    q ∈ gridBall c0 n ↔ max (q.1 - c0.1).natAbs (q.2 - c0.2).natAbs ≤ n := by
  obtain ⟨c1, c2⟩ := c0
  obtain ⟨q1, q2⟩ := q
  unfold gridBall
  rw [Finset.mem_Icc]
  simp only [Prod.le_def]
  omega

lemma mem_mooreNeighbors {p q : ℤ × ℤ} :
    q ∈ (mooreNeighbors p).toFinset ↔
      max (q.1 - p.1).natAbs (q.2 - p.2).natAbs ≤ 1 ∧ q ≠ p := by
  obtain ⟨p1, p2⟩ := p
  obtain ⟨q1, q2⟩ := q
  simp only [mooreNeighbors, List.mem_toFinset, List.mem_cons, List.not_mem_nil,
    or_false, Prod.mk.injEq, ne_eq, not_and]
  omega

lemma nextFrontier_sphere (c0 : ℤ × ℤ) (n : ℕ) :
    _nextFrontier mooreE (gridSphere c0 n) (gridBall c0 n) = gridSphere c0 (n + 1) := by
  ext q
  obtain ⟨c1, c2⟩ := c0
  obtain ⟨q1, q2⟩ := q
  simp only [_nextFrontier, Finset.mem_sdiff, Finset.mem_biUnion, mooreE,
    mem_gridSphere, mem_gridBall, mem_mooreNeighbors]
  constructor
  · rintro ⟨⟨⟨p1, p2⟩, hp, hqp, _⟩, hq⟩
    simp only [mem_gridSphere] at hp
    omega
  · intro h
    refine ⟨⟨(c1 + max (-(n : ℤ)) (min (n : ℤ) (q1 - c1)),
              c2 + max (-(n : ℤ)) (min (n : ℤ) (q2 - c2))), ?_, ?_, ?_⟩, ?_⟩
    · dsimp only
      omega
    · dsimp only
      omega
    · simp only [ne_eq, Prod.mk.injEq, not_and]
      omega
    · omega

lemma gridBall_union_sphere (c0 : ℤ × ℤ) (n : ℕ) :
    gridBall c0 n ∪ gridSphere c0 (n + 1) = gridBall c0 (n + 1) := by
  ext q
  simp only [Finset.mem_union, mem_gridBall, mem_gridSphere]
  omega

lemma gridSphere_zero (c0 : ℤ × ℤ) : gridSphere c0 0 = {c0} := by
  ext q
  rw [mem_gridSphere, Finset.mem_singleton]
  obtain ⟨c1, c2⟩ := c0
  obtain ⟨q1, q2⟩ := q
  simp only [Prod.mk.injEq]
  omega

lemma gridBall_zero (c0 : ℤ × ℤ) : gridBall c0 0 = {c0} := by
  ext q
  rw [mem_gridBall, Finset.mem_singleton]
  obtain ⟨c1, c2⟩ := c0
  obtain ⟨q1, q2⟩ := q
  simp only [Prod.mk.injEq]
  omega

/-- From a single origin, iterating the loop body `n` times puts the state
exactly at (Chebyshev sphere `n`, Chebyshev ball `n`). -/
lemma advanceFrontier_iterate (c0 : ℤ × ℤ) (n : ℕ) :
    (advanceFrontier mooreE)^[n] ({c0}, {c0}) = (gridSphere c0 n, gridBall c0 n) := by
  induction n with
  | zero => simp [gridSphere_zero, gridBall_zero]
  | succ m ih =>
      rw [Function.iterate_succ_apply', ih]
      unfold advanceFrontier
      simp only
      rw [nextFrontier_sphere, gridBall_union_sphere]

lemma card_gridSphere (c0 : ℤ × ℤ) (n : ℕ) :
    (gridSphere c0 n).card = if n = 0 then 1 else 8 * n := by
  have hinj : Function.Injective (fun z : ℤ × ℤ => (c0.1 + z.1, c0.2 + z.2)) := by
    rintro ⟨a1, a2⟩ ⟨b1, b2⟩ h
    simp only [Prod.mk.injEq] at h ⊢
    omega
  unfold gridSphere
  rw [Finset.card_image_of_injective _ hinj]
  rcases n with _ | m
  · simp
  · rw [Int.card_box (Nat.succ_ne_zero m)]
    simp

/-- As long as the loop index stays at or below the cap, the bounded
generator yields the iterated loop states and never raises. -/
lemma boundedFrontier_eq_map [DecidableEq χ] (E : GeoExt χ) :
    ∀ (rem i : ℕ), i + rem ≤ MAX_RECURSIVE_FRONTIER + 1 → ∀ s : Finset χ × Finset χ,
      (boundedFrontier E rem i s.1 s.2).1
          = (List.range rem).map (fun k => ((advanceFrontier E)^[k] s).1)
        ∧ (boundedFrontier E rem i s.1 s.2).2 = false := by
  intro rem
  induction rem with
  | zero => intro i _ s; simp [boundedFrontier]
  | succ m ih =>
      intro i hi s
      have hcap : ¬ MAX_RECURSIVE_FRONTIER < i := by omega
      have step := ih (i + 1) (by omega) (advanceFrontier E s)
      rw [boundedFrontier]
      simp only [hcap, if_false]
      refine ⟨?_, by simpa [advanceFrontier] using step.2⟩
      rw [List.range_succ_eq_map, List.map_cons, List.map_map]
      have h1 : (boundedFrontier E m (i + 1) (_nextFrontier E s.1 s.2)
          (s.2 ∪ _nextFrontier E s.1 s.2)).1
          = (List.range m).map (fun k => ((advanceFrontier E)^[k] (advanceFrontier E s)).1) := by
        simpa [advanceFrontier] using step.1
      rw [h1]
      simp only [Function.iterate_zero_apply, List.cons.injEq, true_and]
      apply List.map_congr_left
      intro k _
      simp [Function.comp, Function.iterate_succ_apply]

lemma recursiveFrontier_eq_map [DecidableEq χ] (E : GeoExt χ) (case_id : χ) (N : ℕ)
    (hN : N ≤ MAX_RECURSIVE_FRONTIER + 1) :
    (_recursiveFrontier E case_id N).1
        = (List.range N).map (fun k => ((advanceFrontier E)^[k] ({case_id}, {case_id})).1)
      ∧ (_recursiveFrontier E case_id N).2 = false :=
  boundedFrontier_eq_map E N 0 (by omega) ({case_id}, {case_id})

/-- The undrained unbounded generator yields exactly `fuel` frontiers before
the fuel (the distance to the hard cap) runs out. -/
lemma unboundedFrontier_length [DecidableEq χ] (E : GeoExt χ) :
    ∀ (fuel : ℕ) (frontier interior : Finset χ),
      (unboundedFrontier E fuel frontier interior).length = fuel := by
  intro fuel
  induction fuel with
  | zero => intro f i; rfl
  | succ m ih => intro f i; rw [unboundedFrontier]; simp [ih]

/-- Ring sizes from a single origin sum to an odd square:
rings `0..m` of the Moore grid hold `(2m+1)²` cells in total. -/
lemma sum_card_gridSphere (c0 : ℤ × ℤ) :
    ∀ m : ℕ, ((List.range (m + 1)).map (fun k => (gridSphere c0 k).card)).sum
      = (2 * m + 1) ^ 2 := by
  intro m
  induction m with
  | zero =>
      rw [List.range_succ]
      simp [card_gridSphere]
  | succ k ih =>
      rw [List.range_succ, List.map_append, List.sum_append]
      rw [ih]
      simp only [List.map_cons, List.map_nil, List.sum_cons, List.sum_nil, add_zero]
      rw [card_gridSphere]
      simp only [Nat.succ_ne_zero, if_false]
      ring

/-- Python `int()` agrees with the floor on nonnegative rationals. -/
lemma ratTrunc_eq_floor (q : ℚ) (h : 0 ≤ q) : ratTrunc q = ⌊q⌋ := by
  rw [Rat.floor_def]
  exact Int.tdiv_eq_ediv (Rat.num_nonneg.mpr h) (by positivity)

lemma lexLtBQ_irrefl (a : Bool × ℚ) : ¬ lexLtBQ a a := by
  rintro (h | ⟨_, h⟩) <;> exact lt_irrefl _ h

lemma lexLtBQ_trans {a b c : Bool × ℚ} (h1 : lexLtBQ a b) (h2 : lexLtBQ b c) :
    lexLtBQ a c := by
  rcases h1 with h1 | ⟨e1, l1⟩ <;> rcases h2 with h2 | ⟨e2, l2⟩
  · exact Or.inl (lt_trans h1 h2)
  · exact Or.inl (e2 ▸ h1)
  · exact Or.inl (e1 ▸ h2)
  · exact Or.inr ⟨e1.trans e2, lt_trans l1 l2⟩

/-- If `a`'s key does not beat `b`'s but beats `c`'s, then `b`'s beats
`c`'s: totality of the Python tuple order, in the form the fold needs. -/
lemma lexLtBQ_resolve {a b c : Bool × ℚ} (hab : ¬ lexLtBQ a b) (hac : lexLtBQ a c) :
    lexLtBQ b c := by
  rw [lexLtBQ, not_or, not_and] at hab
  obtain ⟨h1, h2⟩ := hab
  rcases hac with hac | ⟨e, l⟩
  · exact Or.inl (lt_of_le_of_lt (not_lt.mp h1) hac)
  · rcases lt_or_eq_of_le (not_lt.mp h1) with hb | hb
    · exact Or.inl (e ▸ hb)
    · refine Or.inr ⟨hb ▸ e, lt_of_le_of_lt (not_lt.mp (h2 hb.symm)) l⟩

/-- The fold behind Python's `min(..., key=...)` returns an element whose
key no listed element strictly beats. -/
lemma pyMinKey_spec (radius : ℚ) :
    ∀ (l : List (ℕ × ℚ)) (x y : ℕ × ℚ), y ∈ x :: l →
      ¬ lexLtBQ (pyKeyOf radius y.2) (pyKeyOf radius (pyMinKey radius l x).2) := by
  intro l
  induction l with
  | nil =>
      intro x y hy
      rcases List.mem_singleton.mp hy with rfl
      exact lexLtBQ_irrefl _
  | cons z zs ih =>
      intro x y hy
      rw [pyMinKey]
      by_cases hz : lexLtBQ (pyKeyOf radius z.2) (pyKeyOf radius x.2)
      · rw [if_pos hz]
        rcases hy with _ | ⟨_, hy⟩
        · intro hcon
          exact ih z z (List.mem_cons_self z zs) (lexLtBQ_trans hz hcon)
        · rcases hy with _ | ⟨_, hy⟩
          · exact ih z z (List.mem_cons_self z zs)
          · exact ih z y (List.mem_cons_of_mem z hy)
      · rw [if_neg hz]
        rcases hy with _ | ⟨_, hy⟩
        · exact ih x x (List.mem_cons_self x zs)
        · rcases hy with _ | ⟨_, hy⟩
          · intro hcon
            exact ih x x (List.mem_cons_self x zs) (lexLtBQ_resolve hz hcon)
          · exact ih x y (List.mem_cons_of_mem x hy)

/-! ## Dict-update lemmas and the bucket invariant -/

lemma find?_updateEntry_self (key : String) (v : χ × (ℚ × ℚ)) :
    ∀ l : List (String × χ × (ℚ × ℚ)),
      (updateEntry l key v).find? (fun e => e.1 == key) = some (key, v) := by
  intro l
  induction l with
  | nil => simp [updateEntry, List.find?]
  | cons e es ih =>
      rw [updateEntry]
      by_cases he : e.1 = key
      · rw [if_pos he]
        simp [List.find?]
      · rw [if_neg he]
        rw [List.find?]
        have : (e.1 == key) = false := by simpa using he
        rw [this]
        exact ih

lemma find?_updateEntry_other (key k2 : String) (v : χ × (ℚ × ℚ)) (h : k2 ≠ key) :
    ∀ l : List (String × χ × (ℚ × ℚ)),
      (updateEntry l key v).find? (fun e => e.1 == k2) = l.find? (fun e => e.1 == k2) := by
  intro l
  induction l with
  | nil =>
      simp only [updateEntry, List.find?]
      have : (key == k2) = false := by simpa using (Ne.symm h)
      rw [this]
  | cons e es ih =>
      rw [updateEntry]
      by_cases he : e.1 = key
      · rw [if_pos he]
        rw [List.find?, List.find?]
        have h1 : (key == k2) = false := by simpa using (Ne.symm h)
        have h2 : (e.1 == k2) = false := by
          have : e.1 ≠ k2 := by rw [he]; exact Ne.symm h
          simpa using this
        rw [h1, h2]
      · rw [if_neg he]
        rw [List.find?]
        cases hc : (e.1 == k2)
        · simpa [List.find?, hc] using ih
        · simp [List.find?, hc]

/-- The cross-mapping invariant: every key with a `_keys` entry occurs in
the `_grid` bucket of its recorded case. -/
def GridInv [DecidableEq χ] (g : GeoGrid χ) : Prop :=
  ∀ key cp, lookupKey g key = some cp → key ∈ g._grid cp.1

lemma gridInv_add [DecidableEq χ] (E : GeoExt χ) (g : GeoGrid χ)
    (hg : GridInv g) (key : String) (p : ℚ × ℚ) : GridInv (add E g key p) := by
  unfold add
  cases henc : E.encode p with
  | none => exact hg
  | some case_id =>
      intro k2 cp hl
      unfold lookupKey at hl
      by_cases hk : k2 = key
      · subst hk
        rw [find?_updateEntry_self] at hl
        have hcp : (case_id, p) = cp := Option.some.inj hl
        subst hcp
        simp [List.mem_append]
      · rw [find?_updateEntry_other key k2 _ hk] at hl
        have := hg k2 cp hl
        by_cases hc : cp.1 = case_id
        · simp only [hc, if_pos rfl]
          exact List.mem_append_left _ (hc ▸ this)
        · simpa [hc] using this

lemma gridInv_applyAdds [DecidableEq χ] (E : GeoExt χ) (precision : ℕ) (avg : ℚ)
    (l : List (String × (ℚ × ℚ))) : GridInv (applyAdds E precision avg l) := by
  unfold applyAdds
  have hbase : GridInv (gridFromPrecision χ precision avg) := by
    intro key cp h
    simp [lookupKey, gridFromPrecision, List.find?] at h
  generalize gridFromPrecision χ precision avg = g0 at hbase ⊢
  induction l generalizing g0 with
  | nil => exact hbase
  | cons kp l ih => exact ih _ (gridInv_add E g0 hbase kp.1 kp.2)

/-! ## Supporting lemmas for the claim theorems -/

lemma sortPairs_sorted (s : Multiset (ℚ × String)) : List.Sorted pairLE (sortPairs s) :=
  Quot.inductionOn s fun l => List.sorted_insertionSort pairLE l

lemma findClosestAux_ok_shape [DecidableEq χ] (E : GeoExt χ) (g : GeoGrid χ)
    (lat_lng : ℚ × ℚ) (N : ℕ) (fk : Option (Finset String)) (l : List (ℚ × String))
    (h : findClosestAux E g lat_lng N true fk = .ok l) :
    ∃ found : Finset String,
      l = (sortPairs (_check_distance E g lat_lng none found.val)).take
            (min N g._keys.length) := by
  unfold findClosestAux at h
  cases henc : E.encode lat_lng with
  | none => rw [henc] at h; exact absurd h (by simp)
  | some case_id =>
      rw [henc] at h
      dsimp only at h
      cases hloop : closestLoop E g fk (min N g._keys.length)
          (MAX_RECURSIVE_FRONTIER + 1) {case_id} {case_id} ∅ with
      | error e => rw [hloop] at h; exact absurd h (by simp)
      | ok found =>
          rw [hloop] at h
          simp only [if_true, Except.ok.injEq] at h
          exact ⟨found, h.symm⟩

lemma findClosest_ok_shape [DecidableEq χ] (E : GeoExt χ) (g : GeoGrid χ)
    (lat_lng : ℚ × ℚ) (N : ℕ) (from_keys : Option (List String)) (l : List (ℚ × String))
    (h : findClosestFromPoint E g lat_lng N true from_keys = .ok l) :
    l = [] ∨ ∃ found : Finset String,
      l = (sortPairs (_check_distance E g lat_lng none found.val)).take
            (min N g._keys.length) := by
  unfold findClosestFromPoint at h
  cases from_keys with
  | none => exact Or.inr (findClosestAux_ok_shape E g lat_lng N none l h)
  | some lst =>
      dsimp only at h
      by_cases he : lst.toFinset = ∅
      · rw [if_pos he] at h
        simp only [Except.ok.injEq] at h
        exact Or.inl h.symm
      · rw [if_neg he] at h
        exact Or.inr (findClosestAux_ok_shape E g lat_lng N (some lst.toFinset) l h)

/-- The two-key build used as the concrete scenario: key "B" inserted first,
then key "A", both at the same point, so the bucket of their shared cell is
`["B", "A"]` (discovery order B before A) and their distances from the query
point tie. -/
def gBA : GeoGrid (ℤ × ℤ) :=
  applyAdds mooreE 4 20 [("B", (1/2, 1/2)), ("A", (1/2, 1/2))]

/-! ## Claim theorems -/

/-- C1, amended: every result `findClosestFromPoint` returns with
`doubleCheck` true is the candidates' `(distance, key)` pairs sorted
ascending — by exact distance, with ties in distance ordered by key
(Python's `sorted` compares the pairs, so equal distances fall back to key
comparison, not to discovery order) — truncated to the first clamped `N`
(`findClosest_ok_shape` exhibits the truncated sorted enumeration). -/
theorem findClosest_sorted_by_distance_key {χ : Type} [DecidableEq χ] (E : GeoExt χ)
    (g : GeoGrid χ) (lat_lng : ℚ × ℚ) (N : ℕ) (from_keys : Option (List String))
    (l : List (ℚ × String))
    (h : findClosestFromPoint E g lat_lng N true from_keys = .ok l) :
    List.Sorted pairLE l ∧ List.Sorted (fun a b : ℚ × String => a.1 ≤ b.1) l := by
  rcases findClosest_ok_shape E g lat_lng N from_keys l h with rfl | ⟨found, rfl⟩
  · exact ⟨List.sorted_nil, List.sorted_nil⟩
  · have hs : List.Sorted pairLE
        ((sortPairs (_check_distance E g lat_lng none found.val)).take
          (min N g._keys.length)) :=
      List.Pairwise.sublist (List.take_sublist _ _) (sortPairs_sorted _)
    refine ⟨hs, hs.imp ?_⟩
    intro a b hab
    rcases hab with hlt | ⟨heq, -⟩
    · exact le_of_lt hlt
    · exact le_of_eq heq

theorem findClosest_sorted_by_distance_key_witness :
    findClosestFromPoint mooreE gBA (1/2, 1/2) 1 true none = Except.ok [((0 : ℚ), "A")]
    ∧ List.Sorted pairLE [((0 : ℚ), "A")] :=
  ⟨by with_unfolding_all decide,
   (findClosest_sorted_by_distance_key mooreE gBA (1/2, 1/2) 1 none [((0 : ℚ), "A")]
      (by with_unfolding_all decide)).1⟩

/-- C1 counterexample: on `gBA` the bucket (discovery) order is
`["B", "A"]` and both candidates tie at distance 0, yet the returned pairs
are `A` before `B`: the claimed stable discovery-order tie-breaking does not
hold — ties follow key order. -/
theorem findClosest_tie_breaks_by_key :
    findClosestFromPoint mooreE gBA (1/2, 1/2) 2 true none
        = Except.ok [((0 : ℚ), "A"), ((0 : ℚ), "B")]
    ∧ gBA._grid (0, 0) = ["B", "A"] := by
  with_unfolding_all decide

/-- C2, amended: when `doubleCheck` is true the result's length is at most
`N` clamped to the number of indexed keys; the `doubleCheck=false` branch
returns every found candidate without truncation and can exceed `N`
(see the counterexample). -/
theorem findClosest_doubleCheck_len_le {χ : Type} [DecidableEq χ] (E : GeoExt χ)
    (g : GeoGrid χ) (lat_lng : ℚ × ℚ) (N : ℕ) (from_keys : Option (List String))
    (l : List (ℚ × String))
    (h : findClosestFromPoint E g lat_lng N true from_keys = .ok l) :
    l.length ≤ min N g._keys.length := by
  rcases findClosest_ok_shape E g lat_lng N from_keys l h with rfl | ⟨found, rfl⟩
  · exact Nat.zero_le _
  · exact List.length_take_le _ _

theorem findClosest_doubleCheck_len_le_witness :
    [((0 : ℚ), "A"), ((0 : ℚ), "B")].length ≤ min 2 gBA._keys.length :=
  findClosest_doubleCheck_len_le mooreE gBA (1/2, 1/2) 2 none
    [((0 : ℚ), "A"), ((0 : ℚ), "B")] (by with_unfolding_all decide)

/-- C2 counterexample: with `doubleCheck` false and `N = 1` on a two-key
index whose keys share one cell, the call returns both keys: the length-2
result exceeds the clamped `N = 1`. -/
theorem findClosest_no_doubleCheck_exceeds_N :
    findClosestFromPoint mooreE gBA (1/2, 1/2) 1 false none
        = Except.ok [((0 : ℚ), "A"), ((0 : ℚ), "B")]
    ∧ ¬ ([((0 : ℚ), "A"), ((0 : ℚ), "B")].length ≤ min 1 gBA._keys.length) := by
  with_unfolding_all decide

/-- C3, amended: unbounded frontier expansion always terminates, emitting
exactly `MAX_RECURSIVE_FRONTIER + 1` rings (the raise fires at loop index
`MAX_RECURSIVE_FRONTIER + 1`, after ring number `MAX_RECURSIVE_FRONTIER`
was yielded — one more ring than the cap value, not capped at it), and a
consumer that never satisfies its stop condition observes the distinguished
`expansionExhausted` error, never a silent truncation or a hang. -/
theorem unboundedFrontier_hard_cap {χ : Type} [DecidableEq χ] (E : GeoExt χ)
    (case_id : χ) :
    (unboundedYields E case_id).length = MAX_RECURSIVE_FRONTIER + 1
    ∧ ∀ (g : GeoGrid χ) (fk : Option (Finset String)) (N : ℕ)
        (frontier interior : Finset χ) (found : Finset String),
        closestLoop E g fk N 0 frontier interior found
          = Except.error .expansionExhausted :=
  ⟨unboundedFrontier_length E (MAX_RECURSIVE_FRONTIER + 1) {case_id} {case_id},
   fun _ _ _ _ _ _ => rfl⟩

/-- C3 counterexample: a concrete unbounded expansion emits
`MAX_RECURSIVE_FRONTIER + 1 = 5001` rings — more rings than the hard cap
value 5000 the claim allows. -/
theorem unboundedFrontier_exceeds_cap :
    (unboundedYields mooreE ((0 : ℤ), (0 : ℤ))).length = MAX_RECURSIVE_FRONTIER + 1
    ∧ MAX_RECURSIVE_FRONTIER < (unboundedYields mooreE ((0 : ℤ), (0 : ℤ))).length := by
  unfold unboundedYields
  refine ⟨unboundedFrontier_length mooreE _ _ _, ?_⟩
  rw [unboundedFrontier_length mooreE _ _ _]
  omega

/-- C4 (confirmed): a radius-driven construction picks a precision whose
key `(avg_error < radius, |radius - avg_error|)` is lexicographically
minimal over the 8-level table (no table entry's key is strictly smaller),
and radius 20 selects precision 4 with average cell error 20, retained as
the index's `_avg_radius`. -/
theorem selectPrecision_minimizes (radius : ℚ) (pe : ℕ × ℚ)
    (hpe : pe ∈ precision_to_errors) :
    ¬ lexLtBQ (pyKeyOf radius pe.2) (pyKeyOf radius (selectPrecision radius).2)
    ∧ selectPrecision 20 = (4, 20)
    ∧ (gridFromRadius (ℤ × ℤ) 20)._precision = 4
    ∧ (gridFromRadius (ℤ × ℤ) 20)._avg_radius = 20 := by
  refine ⟨?_, by with_unfolding_all decide, by with_unfolding_all decide,
    by with_unfolding_all decide⟩
  have hsel : selectPrecision radius = pyMinKey radius
      [(2, 630), (3, 78), (4, 20), (5, 24/10), (6, 61/100), (7, 76/1000), (8, 19/1000)]
      (1, 2500) := rfl
  rw [hsel]
  exact pyMinKey_spec radius _ (1, 2500) pe hpe

theorem selectPrecision_minimizes_witness :
    ((4 : ℕ), (20 : ℚ)) ∈ precision_to_errors
    ∧ ¬ lexLtBQ (pyKeyOf 7 ((4 : ℕ), (20 : ℚ)).2) (pyKeyOf 7 (selectPrecision 7).2) :=
  ⟨by with_unfolding_all decide,
   (selectPrecision_minimizes 7 (4, 20) (by with_unfolding_all decide)).1⟩

/-- C5 (confirmed): for the regular-grid (Moore) adjacency and a single
origin with no prior interior, ring 0 of `_recursiveFrontier` is exactly
`{startCell}`, ring `i ≥ 1` has exactly `8·i` cells, and the rings of an
`N`-ring expansion hold `(2N−1)²` cells in total (9, 25, 49, 81 for
N = 2, 3, 4, 5). -/
theorem recursiveFrontier_ring_sizes (c0 : ℤ × ℤ) (N i : ℕ) (hi : i < N)
    (hN : N ≤ MAX_RECURSIVE_FRONTIER + 1) :
    (_recursiveFrontier mooreE c0 N).1.getD 0 ∅ = {c0}
    ∧ ((_recursiveFrontier mooreE c0 N).1.getD i ∅).card = (if i = 0 then 1 else 8 * i)
    ∧ ((_recursiveFrontier mooreE c0 N).1.map Finset.card).sum = (2 * N - 1) ^ 2 := by
  obtain ⟨hlist, -⟩ := recursiveFrontier_eq_map mooreE c0 N hN
  have hget : ∀ j, j < N → (_recursiveFrontier mooreE c0 N).1.getD j ∅ = gridSphere c0 j := by
    intro j hj
    rw [hlist, List.getD_eq_getElem?_getD, List.getElem?_map, List.getElem?_range hj]
    simp [advanceFrontier_iterate]
  refine ⟨?_, ?_, ?_⟩
  · rw [hget 0 (by omega), gridSphere_zero]
  · rw [hget i hi, card_gridSphere]
  · rw [hlist]
    obtain ⟨m, rfl⟩ : ∃ m, N = m + 1 := ⟨N - 1, by omega⟩
    rw [List.map_map]
    have hcomp : (Finset.card ∘ fun k => ((advanceFrontier mooreE)^[k] ({c0}, {c0})).1)
        = fun k => (gridSphere c0 k).card := by
      funext k
      simp [Function.comp, advanceFrontier_iterate]
    rw [hcomp]
    have h21 : 2 * (m + 1) - 1 = 2 * m + 1 := by omega
    rw [h21, sum_card_gridSphere]

theorem recursiveFrontier_ring_sizes_witness :
    ((_recursiveFrontier mooreE ((0 : ℤ), (0 : ℤ)) 2).1.getD 1 ∅).card
      = (if 1 = 0 then 1 else 8 * 1) :=
  (recursiveFrontier_ring_sizes (0, 0) 2 1 (by omega) (by decide)).2.1

/-- C6 (confirmed): the radius-to-ring-count conversion shared by
`findNearPoint` and `findNearKey` (`_findNearCase`) yields exactly 2 rings
when the radius equals the index's average cell error and
`⌊radius / avg⌋ + 2` rings otherwise, and (within the hard cap) the bounded
expansion indeed yields exactly that many rings without raising. -/
theorem findNearCase_ring_count (radius avg : ℚ) (h0 : 0 ≤ radius) (h1 : 0 < avg)
    (h2 : radius / avg ≤ 4999) :
    _findNearCaseN radius avg = (if radius = avg then 2 else ⌊radius / avg⌋ + 2)
    ∧ ∀ (χ2 : Type) [DecidableEq χ2] (E : GeoExt χ2) (case_id : χ2),
        (_recursiveFrontier E case_id (_findNearCaseN radius avg).toNat).1.length
            = (_findNearCaseN radius avg).toNat
        ∧ (_recursiveFrontier E case_id (_findNearCaseN radius avg).toNat).2 = false := by
  have heq : _findNearCaseN radius avg = (if radius = avg then 2 else ⌊radius / avg⌋ + 2) := by
    unfold _findNearCaseN
    split_ifs with hr
    · rfl
    · rw [ratTrunc_eq_floor _ (div_nonneg h0 h1.le)]
  refine ⟨heq, ?_⟩
  have hfloor : ⌊radius / avg⌋ ≤ 4999 := by
    calc ⌊radius / avg⌋ ≤ ⌊(4999 : ℚ)⌋ := Int.floor_le_floor h2
    _ = 4999 := by norm_num
  have hcap : (_findNearCaseN radius avg).toNat ≤ MAX_RECURSIVE_FRONTIER + 1 := by
    rw [heq]
    have hM : MAX_RECURSIVE_FRONTIER = 5000 := rfl
    split_ifs <;> omega
  intro χ2 inst E case_id
  obtain ⟨hlist, hflag⟩ := recursiveFrontier_eq_map E case_id _ hcap
  rw [hlist, hflag]
  simp

theorem findNearCase_ring_count_witness :
    _findNearCaseN 50 20 = (if (50 : ℚ) = 20 then 2 else ⌊(50 : ℚ) / 20⌋ + 2)
    ∧ (_recursiveFrontier mooreE ((0 : ℤ), (0 : ℤ)) (_findNearCaseN 50 20).toNat).1.length
        = (_findNearCaseN 50 20).toNat := by
  have h := findNearCase_ring_count 50 20 (by norm_num) (by norm_num) (by norm_num)
  exact ⟨h.1, (h.2 (ℤ × ℤ) mooreE (0, 0)).1⟩

/-- C7 (confirmed): when the external encoder fails on the inserted point,
`add` is a no-op: no entry in either mapping, the whole state unchanged —
and `add` is a total function, so the failure never escapes to the caller. -/
theorem add_invalid_point_noop {χ2 : Type} [DecidableEq χ2] (E : GeoExt χ2)
    (g : GeoGrid χ2) (key : String) (lat_lng : ℚ × ℚ)
    (h : E.encode lat_lng = none) :
    add E g key lat_lng = g := by
  unfold add
  rw [h]

theorem add_invalid_point_noop_witness :
    mooreE.encode (91, 0) = none
    ∧ add mooreE gBA "X" (91, 0) = gBA :=
  ⟨by with_unfolding_all decide,
   add_invalid_point_noop mooreE gBA "X" (91, 0) (by with_unfolding_all decide)⟩

/-- C8 (confirmed): a supplied empty restriction set makes
`findClosestFromPoint` return the empty result at once — for every external
collaborator and grid state, before encoding the point or expanding any
frontier, so `expansionExhausted` cannot arise. -/
theorem findClosest_empty_restriction {χ2 : Type} [DecidableEq χ2] (E : GeoExt χ2)
    (g : GeoGrid χ2) (lat_lng : ℚ × ℚ) (N : ℕ) (double_check : Bool) :
    findClosestFromPoint E g lat_lng N double_check (some []) = Except.ok [] := by
  unfold findClosestFromPoint
  simp

/-- C9 (confirmed): after any build sequence (re-insertions included),
every key of the key-to-entry mapping occurs in the bucket of its currently
recorded cell. -/
theorem applyAdds_bucket_invariant {χ2 : Type} [DecidableEq χ2] (E : GeoExt χ2)
    (precision : ℕ) (avg : ℚ) (l : List (String × (ℚ × ℚ))) (key : String)
    (cp : χ2 × (ℚ × ℚ))
    (h : lookupKey (applyAdds E precision avg l) key = some cp) :
    key ∈ (applyAdds E precision avg l)._grid cp.1 :=
  gridInv_applyAdds E precision avg l key cp h

theorem applyAdds_bucket_invariant_witness :
    lookupKey gBA "A" = some (((0 : ℤ), (0 : ℤ)), (1/2, 1/2))
    ∧ "A" ∈ gBA._grid ((0 : ℤ), (0 : ℤ)) :=
  ⟨by with_unfolding_all decide,
   applyAdds_bucket_invariant mooreE 4 20 [("B", (1/2, 1/2)), ("A", (1/2, 1/2))] "A"
      (((0 : ℤ), (0 : ℤ)), (1/2, 1/2)) (by with_unfolding_all decide)⟩

/-- C10 (confirmed): for a point that is present (not the missing-point
marker) but rejected by the external encoder, both point-based queries
surface the encoder's failure to the caller instead of returning an empty
result — only `add` guards the encoding step. -/
theorem point_queries_propagate_encode_failure {χ2 : Type} [DecidableEq χ2]
    (E : GeoExt χ2) (g : GeoGrid χ2) (p : ℚ × ℚ) (radius : ℚ) (N : ℕ)
    (double_check : Bool) (h : E.encode p = none) :
    findNearPoint E g (some p) radius double_check = Except.error .encodeError
    ∧ findClosestFromPoint E g p N double_check none = Except.error .encodeError := by
  constructor
  · unfold findNearPoint
    dsimp only
    rw [h]
  · unfold findClosestFromPoint findClosestAux
    dsimp only
    rw [h]

theorem point_queries_propagate_encode_failure_witness :
    findNearPoint mooreE gBA (some (91, 0)) 20 false = Except.error .encodeError
    ∧ findClosestFromPoint mooreE gBA (91, 0) 1 false none = Except.error .encodeError :=
  point_queries_propagate_encode_failure mooreE gBA (91, 0) 20 1 false
    (by with_unfolding_all decide)
